import Mathlib

/-!
Shallow embedding of the metric accumulators in
`composer/models/nlp_metrics.py` and of the `DropBlock` module in
`composer/algorithms/dropblock/dropblock_layers.py`, together with proofs
about them.

Modelling conventions:
* torch scalar tensors are modelled by `EFloat`: an exact rational for a
  finite value, plus the IEEE special values `nan`, `+inf`, `-inf`.
  Division of accumulators follows IEEE semantics (`0/0 = nan`,
  `x/0 = ±inf`), which is what torch tensor division produces; float
  rounding is not modelled since no claim depends on it.
* a rank-2 logits tensor is `List (List ℚ)` (rows of class scores), a
  rank-1 target tensor is `List Int`.
* python exceptions surface as `Except MetricError`.
* numeric kernels that live outside this repository (the per-sample
  cross-entropy of `torch.nn.CrossEntropyLoss`, `soft_cross_entropy` from
  `composer.models.loss`, `sklearn.metrics.f1_score`, `torch.exp`, the
  `dropblock` kernel) are abstracted as function parameters; everything the
  repository code itself does (dispatch, masking, accumulation, reduction
  bookkeeping) is translated concretely.
-/

namespace Composer

/-- Scalar value of a torch tensor: a finite (exact) value, or one of the
IEEE special values produced by operations such as division by zero. -/
inductive EFloat where
  | fin (q : ℚ)
  | nan
  | pinf
  | ninf
deriving DecidableEq, Repr

/-- torch division of scalar tensors, IEEE style: `0/0` is `nan`, a nonzero
numerator over `0` is a signed infinity, otherwise the exact quotient. -/
def ediv (a b : ℚ) : EFloat :=
  if b = 0 then
    if a = 0 then .nan else if 0 < a then .pinf else .ninf
  else .fin (a / b)

/-- Errors raised by the python code: a failed `assert`, a failed
`Tensor.view` reshape, a shape disagreement inside a loss kernel, a missing
mapping key, and the explicit unsupported-output `Exception` raised by
`LanguageCrossEntropyLoss.update`. -/
inductive MetricError where
  | assertionError
  | viewError
  | shapeMismatch
  | keyError
  | unsupportedType
deriving DecidableEq, Repr

/-- A model output as consumed by the metrics: a raw logits tensor, a
mapping that may carry a `loss` scalar and/or a `logits` tensor, or any
other python object. -/
inductive ModelOutput where
  | tensor (t : List (List ℚ))
  | mapping (loss : Option ℚ) (logits : Option (List (List ℚ)))
  | other
deriving DecidableEq, Repr

/-- Repeatedly apply an `update` step, stopping at the first error — the
trainer calling `update` once per batch. -/
def runUpdates {σ ε β : Type} (upd : σ → β → Except ε σ) : σ → List β → Except ε σ
  | s, [] => .ok s
  | s, b :: bs =>
    match upd s b with
    | .ok t => runUpdates upd t bs
    | .error e => .error e

theorem runUpdates_append {σ ε β : Type} (upd : σ → β → Except ε σ)
    (l₁ l₂ : List β) (s : σ) :
    runUpdates upd s (l₁ ++ l₂) =
      match runUpdates upd s l₁ with
      | .ok t => runUpdates upd t l₂
      | .error e => .error e := by
  induction l₁ generalizing s with
  | nil => rfl
  | cons b bs ih =>
    simp only [List.cons_append, runUpdates]
    cases upd s b with
    | ok t => exact ih t
    | error e => rfl

/-! ### MaskedAccuracy -/

/-- Index of the first maximal element of the tail, tracking the best value
and its index so far. -/
def argmaxAux : List ℚ → ℚ → ℕ → ℕ → ℕ
  | [], _, _, best => best
  | x :: xs, bv, i, best =>
    if bv < x then argmaxAux xs x (i + 1) i else argmaxAux xs bv (i + 1) best

/-- torch.argmax along the last dimension of one row: the index of the
first maximal element.  torch rejects an empty dimension; `0` is returned
here for an empty row, a case no claim exercises. -/
def argmaxRow : List ℚ → ℕ
  | [] => 0
  | x :: xs => argmaxAux xs x 1 0

/-- State of `MaskedAccuracy`: the `ignore_index` configuration set in
`__init__`, and the two accumulators registered with `add_state`, both
with `dist_reduce_fx="sum"`. -/
structure MaskedAccuracyState where
  ignore_index : Int
  correct : ℕ
  total : ℕ
deriving DecidableEq, Repr

/-- Embedding of `MaskedAccuracy.__init__`: both accumulators start at `torch.tensor(0)`. -/
def MaskedAccuracy.init (ignore_index : Int) : MaskedAccuracyState :=
  ⟨ignore_index, 0, 0⟩

/-- Embedding of `MaskedAccuracy.update`: argmax the predictions over the last dim,
`assert preds.shape == target.shape`, mask out positions whose target is
`ignore_index`, and add the masked match count to `correct` and the mask
size to `total`.  Modelled for rank-2 `preds` against rank-1 `target`, so
the shape assertion compares lengths. -/
def MaskedAccuracy.update (s : MaskedAccuracyState)
    (preds : List (List ℚ)) (target : List Int) :
    Except MetricError MaskedAccuracyState :=
  let p : List Int := preds.map (fun row => (argmaxRow row : Int))
  if p.length = target.length then
    let pairs := p.zip target
    let masked := pairs.filter (fun pt => decide (pt.2 ≠ s.ignore_index))
    .ok { s with
      correct := s.correct + (masked.filter (fun pt => decide (pt.1 = pt.2))).length,
      total := s.total + masked.length }
  else .error .assertionError

/-- Embedding of `MaskedAccuracy.compute`: `self.correct.float() / self.total`. -/
def MaskedAccuracy.compute (s : MaskedAccuracyState) : EFloat :=
  ediv (s.correct : ℚ) (s.total : ℚ)

/-- Embedding of `MaskedAccuracy.compute` as a state transformer: the method body reads
the accumulators and returns an expression; it contains no assignment, so
the state component is returned unchanged. -/
def MaskedAccuracy.computeRun (s : MaskedAccuracyState) :
    EFloat × MaskedAccuracyState :=
  (MaskedAccuracy.compute s, s)

/-- One batch for `MaskedAccuracy`: logits and targets. -/
def MaskedAccuracy.run (s : MaskedAccuracyState)
    (batches : List (List (List ℚ) × List Int)) :
    Except MetricError MaskedAccuracyState :=
  runUpdates (fun st b => MaskedAccuracy.update st b.1 b.2) s batches

/-- Cross-worker reduction of two `MaskedAccuracy` states with the declared
`dist_reduce_fx="sum"` rule on `correct` and `total`; `ignore_index` is
construction-time configuration shared by the workers. -/
def MaskedAccuracy.merge (s₁ s₂ : MaskedAccuracyState) : MaskedAccuracyState :=
  ⟨s₁.ignore_index, s₁.correct + s₂.correct, s₁.total + s₂.total⟩

/-! ### CrossEntropyLoss -/

/-- Python truthiness of `self.ignore_index` (an optional int): `None` and
`0` are falsy, every other int is truthy. -/
def intTruthy : Option Int → Bool
  | none => false
  | some n => decide (n ≠ 0)

/-- Cut `n` consecutive rows of width `v` from the front of a list. -/
def viewRowsAux : ℕ → List ℚ → ℕ → List (List ℚ)
  | 0, _, _ => []
  | n + 1, l, v => l.take v :: viewRowsAux n (l.drop v) v

/-- Embedding of `output.view(-1, v)` applied to the flattened elements of the output
tensor: the rows of width `v`.  The reshape itself is only legal when the
element count is divisible by `v` (checked at the call site). -/
def viewRows (flat : List ℚ) (v : ℕ) : List (List ℚ) :=
  viewRowsAux (flat.length / v) flat v

/-- Embedding of `torch.nn.CrossEntropyLoss(ignore_index=…, reduction="sum")` applied to
rows of logits and a target vector: the sum of the per-sample losses `ce`
over the positions whose target differs from `ignore_index`.  The
per-sample kernel `ce` is external to the repository and abstracted; with
`ignore_index = none` no position is skipped (no claim exercises the torch
default sentinel `-100`). -/
def lossFnSum (ce : List ℚ → Int → ℚ) (ignore_index : Option Int)
    (rows : List (List ℚ)) (target : List Int) : ℚ :=
  ((rows.zip target).filter
      (fun rt => decide (ignore_index ≠ some rt.2))).foldr
    (fun rt acc => ce rt.1 rt.2 + acc) 0

/-- State of `CrossEntropyLoss`: the `vocab_size` and `ignore_index`
configuration set in `__init__` (the latter also baked into `loss_fn`),
and the `sum_loss` / `total_batches` accumulators registered with
`dist_reduce_fx="sum"`. -/
structure CrossEntropyLossState where
  vocab_size : ℕ
  ignore_index : Option Int
  sum_loss : ℚ
  total_batches : ℕ
deriving DecidableEq, Repr

/-- Embedding of `CrossEntropyLoss.__init__`: accumulators start at `torch.tensor(0.)`
and `torch.tensor(0)`. -/
def CrossEntropyLoss.init (vocab_size : ℕ) (ignore_index : Option Int) :
    CrossEntropyLossState :=
  ⟨vocab_size, ignore_index, 0, 0⟩

/-- Embedding of `CrossEntropyLoss.update`: `assert isinstance(output, Tensor)` (so a
mapping or any other object fails the assertion), reshape the output to
`(-1, vocab_size)` (a `viewError` when the element count does not divide),
run `loss_fn` (a `shapeMismatch` when the row count differs from the
target length), then add the masked target count to `total_batches` when
`ignore_index` is truthy — the full target length otherwise — and the
summed loss to `sum_loss`. -/
def CrossEntropyLoss.update (ce : List ℚ → Int → ℚ) (s : CrossEntropyLossState)
    (output : ModelOutput) (target : List Int) :
    Except MetricError CrossEntropyLossState :=
  match output with
  | .tensor t =>
    let flat := t.flatten
    if s.vocab_size ≠ 0 ∧ flat.length % s.vocab_size = 0 then
      let rows := viewRows flat s.vocab_size
      if rows.length = target.length then
        let losses := lossFnSum ce s.ignore_index rows target
        let tb : ℕ :=
          if intTruthy s.ignore_index then
            (target.filter (fun x => decide (some x ≠ s.ignore_index))).length
          else target.length
        .ok { s with
          total_batches := s.total_batches + tb,
          sum_loss := s.sum_loss + losses }
      else .error .shapeMismatch
    else .error .viewError
  | _ => .error .assertionError

/-- Embedding of `CrossEntropyLoss.compute`: `self.sum_loss / self.total_batches`. -/
def CrossEntropyLoss.compute (s : CrossEntropyLossState) : EFloat :=
  ediv s.sum_loss (s.total_batches : ℚ)

/-- Embedding of `CrossEntropyLoss.compute` as a state transformer: the body holds no
assignment, so the state is returned unchanged. -/
def CrossEntropyLoss.computeRun (s : CrossEntropyLossState) :
    EFloat × CrossEntropyLossState :=
  (CrossEntropyLoss.compute s, s)

/-- Repeated `CrossEntropyLoss.update` calls, one per batch. -/
def CrossEntropyLoss.run (ce : List ℚ → Int → ℚ) (s : CrossEntropyLossState)
    (batches : List (ModelOutput × List Int)) :
    Except MetricError CrossEntropyLossState :=
  runUpdates (fun st b => CrossEntropyLoss.update ce st b.1 b.2) s batches

/-- Cross-worker reduction of two `CrossEntropyLoss` states with the
declared `dist_reduce_fx="sum"` rule on both accumulators; the
configuration fields are shared by the workers. -/
def CrossEntropyLoss.merge (s₁ s₂ : CrossEntropyLossState) :
    CrossEntropyLossState :=
  ⟨s₁.vocab_size, s₁.ignore_index, s₁.sum_loss + s₂.sum_loss,
    s₁.total_batches + s₂.total_batches⟩

/-! ### LanguageCrossEntropyLoss and Perplexity -/

/-- State of `LanguageCrossEntropyLoss`: the `sum_loss` / `total_batches`
accumulators registered with `dist_reduce_fx="sum"`. -/
structure LanguageCrossEntropyLossState where
  sum_loss : ℚ
  total_batches : ℕ
deriving DecidableEq, Repr

/-- Embedding of `LanguageCrossEntropyLoss.__init__`. -/
def LanguageCrossEntropyLoss.init : LanguageCrossEntropyLossState := ⟨0, 0⟩

/-- Embedding of `LanguageCrossEntropyLoss.update`: a mapping with a `loss` key
contributes that loss directly; otherwise the logits are taken from a
mapping (`KeyError` when absent) or a raw tensor, and the loss is
recomputed with `soft_cross_entropy` (repository code outside this
excerpt, abstracted as `sce`); any other output raises the unsupported
`Exception`.  `sum_loss` accumulates the loss and `total_batches` grows by
one. -/
def LanguageCrossEntropyLoss.update (sce : List (List ℚ) → List Int → ℚ)
    (s : LanguageCrossEntropyLossState) (output : ModelOutput)
    (target : List Int) :
    Except MetricError LanguageCrossEntropyLossState :=
  match output with
  | .mapping (some l) _ => .ok ⟨s.sum_loss + l, s.total_batches + 1⟩
  | .mapping none (some g) =>
    .ok ⟨s.sum_loss + sce g target, s.total_batches + 1⟩
  | .mapping none none => .error .keyError
  | .tensor t => .ok ⟨s.sum_loss + sce t target, s.total_batches + 1⟩
  | .other => .error .unsupportedType

/-- Embedding of `LanguageCrossEntropyLoss.compute`: `self.sum_loss / self.total_batches`. -/
def LanguageCrossEntropyLoss.compute (s : LanguageCrossEntropyLossState) :
    EFloat :=
  ediv s.sum_loss (s.total_batches : ℚ)

/-- Embedding of `LanguageCrossEntropyLoss.compute` as a state transformer: no
assignment in the body, state unchanged. -/
def LanguageCrossEntropyLoss.computeRun (s : LanguageCrossEntropyLossState) :
    EFloat × LanguageCrossEntropyLossState :=
  (LanguageCrossEntropyLoss.compute s, s)

/-- Repeated `LanguageCrossEntropyLoss.update` calls, one per batch. -/
def LanguageCrossEntropyLoss.run (sce : List (List ℚ) → List Int → ℚ)
    (s : LanguageCrossEntropyLossState)
    (batches : List (ModelOutput × List Int)) :
    Except MetricError LanguageCrossEntropyLossState :=
  runUpdates (fun st b => LanguageCrossEntropyLoss.update sce st b.1 b.2) s batches

/-- Cross-worker reduction of two `LanguageCrossEntropyLoss` states with
the declared `dist_reduce_fx="sum"` rule on both accumulators. -/
def LanguageCrossEntropyLoss.merge
    (s₁ s₂ : LanguageCrossEntropyLossState) : LanguageCrossEntropyLossState :=
  ⟨s₁.sum_loss + s₂.sum_loss, s₁.total_batches + s₂.total_batches⟩

/-- Embedding of `torch.exp` on an extended scalar: the IEEE structure is fixed
(`exp nan = nan`, `exp +inf = +inf`, `exp -inf = 0`) and the finite kernel
is abstracted as `f`. -/
def eexp (f : ℚ → ℚ) : EFloat → EFloat
  | .fin q => .fin (f q)
  | .nan => .nan
  | .pinf => .pinf
  | .ninf => .fin 0

/-- Embedding of `Perplexity.__init__`: the class subclasses
`LanguageCrossEntropyLoss` and registers no state of its own, so the
constructor is inherited. -/
def Perplexity.init : LanguageCrossEntropyLossState :=
  LanguageCrossEntropyLoss.init

/-- Embedding of `Perplexity.update` is inherited from `LanguageCrossEntropyLoss`. -/
def Perplexity.update (sce : List (List ℚ) → List Int → ℚ)
    (s : LanguageCrossEntropyLossState) (output : ModelOutput)
    (target : List Int) :
    Except MetricError LanguageCrossEntropyLossState :=
  LanguageCrossEntropyLoss.update sce s output target

/-- Embedding of `Perplexity.compute`: `torch.exp(super().compute())`. -/
def Perplexity.compute (f : ℚ → ℚ) (s : LanguageCrossEntropyLossState) :
    EFloat :=
  eexp f (LanguageCrossEntropyLoss.compute s)

/-- Embedding of `Perplexity.compute` as a state transformer: no assignment in the
body, state unchanged. -/
def Perplexity.computeRun (f : ℚ → ℚ) (s : LanguageCrossEntropyLossState) :
    EFloat × LanguageCrossEntropyLossState :=
  (Perplexity.compute f s, s)

/-- Repeated `Perplexity.update` calls, one per batch. -/
def Perplexity.run (sce : List (List ℚ) → List Int → ℚ)
    (s : LanguageCrossEntropyLossState)
    (batches : List (ModelOutput × List Int)) :
    Except MetricError LanguageCrossEntropyLossState :=
  runUpdates (fun st b => Perplexity.update sce st b.1 b.2) s batches

/-! ### BinaryF1Score -/

/-- State of `BinaryF1Score`: the `predictions` and `labels` lists
registered with `dist_reduce_fx="cat"`, starting empty. -/
structure BinaryF1ScoreState where
  predictions : List ModelOutput
  labels : List (List Int)
deriving DecidableEq, Repr

/-- Embedding of `BinaryF1Score.__init__`. -/
def BinaryF1Score.init : BinaryF1ScoreState := ⟨[], []⟩

/-- Embedding of `BinaryF1Score.update`: append the raw output and target to the
accumulated lists; no validation of any kind is performed. -/
def BinaryF1Score.update (s : BinaryF1ScoreState) (output : ModelOutput)
    (target : List Int) : Except MetricError BinaryF1ScoreState :=
  .ok ⟨s.predictions ++ [output], s.labels ++ [target]⟩

/-- Embedding of `BinaryF1Score.compute`: argmax the accumulated predictions over dim 1
and hand them with the labels to `sklearn.metrics.f1_score`; both kernels
are external to the repository, so the whole computation is abstracted as
a function `f1` of the accumulated lists. -/
def BinaryF1Score.compute
    (f1 : List ModelOutput → List (List Int) → EFloat)
    (s : BinaryF1ScoreState) : EFloat :=
  f1 s.predictions s.labels

/-- Embedding of `BinaryF1Score.compute` as a state transformer: no assignment in the
body, state unchanged. -/
def BinaryF1Score.computeRun
    (f1 : List ModelOutput → List (List Int) → EFloat)
    (s : BinaryF1ScoreState) : EFloat × BinaryF1ScoreState :=
  (BinaryF1Score.compute f1 s, s)

/-- Repeated `BinaryF1Score.update` calls, one per batch. -/
def BinaryF1Score.run (s : BinaryF1ScoreState)
    (batches : List (ModelOutput × List Int)) :
    Except MetricError BinaryF1ScoreState :=
  runUpdates (fun st b => BinaryF1Score.update st b.1 b.2) s batches

/-- Cross-worker reduction of two `BinaryF1Score` states with the declared
`dist_reduce_fx="cat"` rule: list concatenation on both fields. -/
def BinaryF1Score.merge (s₁ s₂ : BinaryF1ScoreState) : BinaryF1ScoreState :=
  ⟨s₁.predictions ++ s₂.predictions, s₁.labels ++ s₂.labels⟩

/-! ### DropBlock -/

/-- State of the `DropBlock` module: the constructor arguments plus the
`training` flag inherited from `nn.Module`. -/
structure DropBlockState where
  drop_prob : ℚ
  block_size : ℕ
  batchwise : Bool
  training : Bool
deriving DecidableEq, Repr

/-- Embedding of `DropBlock.forward`: return the input unchanged when the module is not
training or `drop_prob` is falsy (`0`), otherwise apply the `dropblock`
kernel (repository code outside this excerpt, abstracted as `db`); the
input tensor type is abstract. -/
def DropBlock.forward {α : Type} (db : α → ℚ → ℕ → Bool → α)
    (s : DropBlockState) (x : α) : α :=
  if ¬ s.training ∨ s.drop_prob = 0 then x
  else db x s.drop_prob s.block_size s.batchwise

/-! ### Theorems -/

/-- C1: for every sequence of update calls applied identically to a
`Perplexity` and a `LanguageCrossEntropyLoss` metric, the runs agree
(the update is inherited), and `Perplexity.compute` on the resulting state
is exactly `exp` of `LanguageCrossEntropyLoss.compute` on that state. -/
theorem perplexity_exp_of_language_cross_entropy
    (f : ℚ → ℚ) (sce : List (List ℚ) → List Int → ℚ)
    (batches : List (ModelOutput × List Int)) :
    Perplexity.run sce Perplexity.init batches =
      LanguageCrossEntropyLoss.run sce LanguageCrossEntropyLoss.init batches ∧
    Except.map (Perplexity.compute f)
        (Perplexity.run sce Perplexity.init batches) =
      Except.map (fun s => eexp f (LanguageCrossEntropyLoss.compute s))
        (LanguageCrossEntropyLoss.run sce LanguageCrossEntropyLoss.init batches) := by
  have h : Perplexity.run sce Perplexity.init batches =
      LanguageCrossEntropyLoss.run sce LanguageCrossEntropyLoss.init batches := rfl
  refine ⟨h, ?_⟩
  rw [h]
  cases LanguageCrossEntropyLoss.run sce LanguageCrossEntropyLoss.init batches with
  | ok s => rfl
  | error e => rfl

/-- C2: for each of the five metrics, `compute` run twice in a row returns
the same value and leaves the accumulator state unchanged. -/
theorem compute_idempotent_and_nonmutating :
    (∀ s : MaskedAccuracyState,
      MaskedAccuracy.computeRun (MaskedAccuracy.computeRun s).2 =
        MaskedAccuracy.computeRun s ∧ (MaskedAccuracy.computeRun s).2 = s) ∧
    (∀ s : CrossEntropyLossState,
      CrossEntropyLoss.computeRun (CrossEntropyLoss.computeRun s).2 =
        CrossEntropyLoss.computeRun s ∧ (CrossEntropyLoss.computeRun s).2 = s) ∧
    (∀ s : LanguageCrossEntropyLossState,
      LanguageCrossEntropyLoss.computeRun
          (LanguageCrossEntropyLoss.computeRun s).2 =
        LanguageCrossEntropyLoss.computeRun s ∧
      (LanguageCrossEntropyLoss.computeRun s).2 = s) ∧
    (∀ (f : ℚ → ℚ) (s : LanguageCrossEntropyLossState),
      Perplexity.computeRun f (Perplexity.computeRun f s).2 =
        Perplexity.computeRun f s ∧ (Perplexity.computeRun f s).2 = s) ∧
    (∀ (f1 : List ModelOutput → List (List Int) → EFloat)
        (s : BinaryF1ScoreState),
      BinaryF1Score.computeRun f1 (BinaryF1Score.computeRun f1 s).2 =
        BinaryF1Score.computeRun f1 s ∧ (BinaryF1Score.computeRun f1 s).2 = s) :=
  ⟨fun _ => ⟨rfl, rfl⟩, fun _ => ⟨rfl, rfl⟩, fun _ => ⟨rfl, rfl⟩,
    fun _ _ => ⟨rfl, rfl⟩, fun _ _ => ⟨rfl, rfl⟩⟩

/-- C4: `compute` on the freshly constructed state (denominator
accumulator zero, no update yet) evaluates the torch division `0/0`,
whose value is `nan` — the undefined-metric condition — and never an
ordinary finite value, for `MaskedAccuracy`, `CrossEntropyLoss`,
`LanguageCrossEntropyLoss` and `Perplexity`. -/
theorem compute_before_update_yields_nan
    (i : Int) (v : ℕ) (ig : Option Int) (f : ℚ → ℚ) :
    MaskedAccuracy.compute (MaskedAccuracy.init i) = EFloat.nan ∧
    CrossEntropyLoss.compute (CrossEntropyLoss.init v ig) = EFloat.nan ∧
    LanguageCrossEntropyLoss.compute LanguageCrossEntropyLoss.init =
      EFloat.nan ∧
    Perplexity.compute f Perplexity.init = EFloat.nan ∧
    ∀ q : ℚ, EFloat.nan ≠ EFloat.fin q :=
  ⟨rfl, rfl, rfl, rfl, fun _ h => EFloat.noConfusion h⟩

/-- C7: with `ignore_index = -100`, one update whose target is
`[1, -100, 2, 2]` and whose predictions argmax to `[1, 0, 2, 3]` leaves a
state on which `compute` returns `2/3`. -/
theorem masked_accuracy_two_thirds_example :
    Except.map MaskedAccuracy.compute
      (MaskedAccuracy.update (MaskedAccuracy.init (-100))
        [[0, 1, 0, 0], [1, 0, 0, 0], [0, 0, 1, 0], [0, 0, 0, 1]]
        [1, -100, 2, 2]) =
    Except.ok (EFloat.fin (2 / 3)) := by
  norm_num [MaskedAccuracy.update, MaskedAccuracy.init, MaskedAccuracy.compute,
    argmaxRow, argmaxAux, ediv, Except.map]

/-- C10: `DropBlock.forward` returns its input unchanged whenever the
module is not training or `drop_prob` is `0`, and applies the `dropblock`
kernel exactly when the module is training with nonzero `drop_prob`. -/
theorem dropblock_forward_bypass {α : Type} (db : α → ℚ → ℕ → Bool → α)
    (s : DropBlockState) (x : α) :
    (¬ s.training ∨ s.drop_prob = 0 → DropBlock.forward db s x = x) ∧
    (s.training ∧ s.drop_prob ≠ 0 →
      DropBlock.forward db s x = db x s.drop_prob s.block_size s.batchwise) := by
  constructor
  · intro h
    unfold DropBlock.forward
    exact if_pos h
  · intro h
    unfold DropBlock.forward
    refine if_neg ?_
    push_neg
    exact h

/-- Witness for C10 at concrete inputs: an eval-mode module returns its
input, a training-mode module with `drop_prob = 1/2` applies the kernel. -/
theorem dropblock_forward_bypass_witness :
    DropBlock.forward (fun y _ _ _ => y + 1) ⟨1 / 2, 7, true, false⟩ (5 : ℚ) = 5 ∧
    DropBlock.forward (fun y _ _ _ => y + 1) ⟨1 / 2, 7, true, true⟩ (5 : ℚ) = 5 + 1 := by
  constructor
  · exact (dropblock_forward_bypass (fun y _ _ _ => y + 1)
      ⟨1 / 2, 7, true, false⟩ (5 : ℚ)).1 (Or.inl (by decide))
  · exact (dropblock_forward_bypass (fun y _ _ _ => y + 1)
      ⟨1 / 2, 7, true, true⟩ (5 : ℚ)).2 ⟨rfl, by norm_num⟩

/-- C3 counterexample: `CrossEntropyLoss.update` asserts that the output
is a raw tensor, so a mapping carrying a `loss` key — which the claim says
every metric accepts — fails the assertion. -/
theorem cross_entropy_update_rejects_loss_mapping :
    CrossEntropyLoss.update (fun _ _ => 0) (CrossEntropyLoss.init 3 none)
      (ModelOutput.mapping (some 1) none) [0] =
    Except.error MetricError.assertionError := rfl

/-- C3 amended: `LanguageCrossEntropyLoss.update` accepts raw tensors and
mappings containing a `loss` or `logits` key, raises the unsupported-type
`Exception` for a non-mapping non-tensor output, and a `KeyError` for a
mapping with neither key; `CrossEntropyLoss.update` instead accepts only
raw tensors and fails an assertion on every mapping and on every other
output. -/
theorem update_output_type_dispatch
    (sce : List (List ℚ) → List Int → ℚ) (ce : List ℚ → Int → ℚ)
    (sL : LanguageCrossEntropyLossState) (sC : CrossEntropyLossState)
    (tgt : List Int) :
    (∀ l g, ∃ s, LanguageCrossEntropyLoss.update sce sL
      (ModelOutput.mapping (some l) g) tgt = Except.ok s) ∧
    (∀ g, ∃ s, LanguageCrossEntropyLoss.update sce sL
      (ModelOutput.mapping none (some g)) tgt = Except.ok s) ∧
    (∀ t, ∃ s, LanguageCrossEntropyLoss.update sce sL
      (ModelOutput.tensor t) tgt = Except.ok s) ∧
    LanguageCrossEntropyLoss.update sce sL (ModelOutput.mapping none none) tgt =
      Except.error MetricError.keyError ∧
    LanguageCrossEntropyLoss.update sce sL ModelOutput.other tgt =
      Except.error MetricError.unsupportedType ∧
    (∀ l g, CrossEntropyLoss.update ce sC (ModelOutput.mapping l g) tgt =
      Except.error MetricError.assertionError) ∧
    CrossEntropyLoss.update ce sC ModelOutput.other tgt =
      Except.error MetricError.assertionError :=
  ⟨fun _ _ => ⟨_, rfl⟩, fun _ => ⟨_, rfl⟩, fun _ => ⟨_, rfl⟩, rfl, rfl,
    fun _ _ => rfl, rfl⟩

/-- C5 counterexample: `BinaryF1Score.update` performs no shape validation
at all — an output of two prediction rows against three targets is
accepted without error. -/
theorem binary_f1_update_accepts_mismatched_shapes :
    BinaryF1Score.update BinaryF1Score.init
      (ModelOutput.tensor [[1], [2]]) [0, 1, 0] =
    Except.ok ⟨[ModelOutput.tensor [[1], [2]]], [[0, 1, 0]]⟩ := rfl

theorem viewRowsAux_length (n : ℕ) (l : List ℚ) (v : ℕ) :
    (viewRowsAux n l v).length = n := by
  induction n generalizing l with
  | zero => rfl
  | succ m ih => simp [viewRowsAux, ih]

theorem viewRows_length (flat : List ℚ) (v : ℕ) :
    (viewRows flat v).length = flat.length / v := by
  simp [viewRows, viewRowsAux_length]

/-- Evaluation of `CrossEntropyLoss.update` on a tensor in the successful
case: the reshape divides evenly and the row count matches the target. -/
theorem CrossEntropyLoss.update_tensor_ok (ce : List ℚ → Int → ℚ)
    (s : CrossEntropyLossState) (t : List (List ℚ)) (tgt : List Int)
    (h1 : s.vocab_size ≠ 0) (h2 : t.flatten.length % s.vocab_size = 0)
    (h3 : t.flatten.length / s.vocab_size = tgt.length) :
    CrossEntropyLoss.update ce s (ModelOutput.tensor t) tgt =
      Except.ok { s with
        sum_loss := s.sum_loss +
          lossFnSum ce s.ignore_index (viewRows t.flatten s.vocab_size) tgt,
        total_batches := s.total_batches +
          (if intTruthy s.ignore_index then
            (tgt.filter (fun x => decide (some x ≠ s.ignore_index))).length
          else tgt.length) } := by
  simp only [CrossEntropyLoss.update]
  rw [if_pos ⟨h1, h2⟩, if_pos (by rw [viewRows_length]; exact h3)]

/-- Embedding of `CrossEntropyLoss.update` on a tensor fails the reshape when the
element count does not divide by `vocab_size`. -/
theorem CrossEntropyLoss.update_tensor_viewError (ce : List ℚ → Int → ℚ)
    (s : CrossEntropyLossState) (t : List (List ℚ)) (tgt : List Int)
    (h : s.vocab_size = 0 ∨ t.flatten.length % s.vocab_size ≠ 0) :
    CrossEntropyLoss.update ce s (ModelOutput.tensor t) tgt =
      Except.error MetricError.viewError := by
  simp only [CrossEntropyLoss.update]
  rw [if_neg]
  rcases h with h | h
  · exact fun hc => hc.1 h
  · exact fun hc => h hc.2

/-- Embedding of `CrossEntropyLoss.update` on a tensor fails inside `loss_fn` when the
reshaped row count disagrees with the target length. -/
theorem CrossEntropyLoss.update_tensor_shapeMismatch (ce : List ℚ → Int → ℚ)
    (s : CrossEntropyLossState) (t : List (List ℚ)) (tgt : List Int)
    (h1 : s.vocab_size ≠ 0) (h2 : t.flatten.length % s.vocab_size = 0)
    (h3 : t.flatten.length / s.vocab_size ≠ tgt.length) :
    CrossEntropyLoss.update ce s (ModelOutput.tensor t) tgt =
      Except.error MetricError.shapeMismatch := by
  simp only [CrossEntropyLoss.update]
  rw [if_pos ⟨h1, h2⟩, if_neg (by rw [viewRows_length]; exact h3)]

/-- C5 amended: `MaskedAccuracy.update` validates shapes at update time —
it fails (the `assert`) exactly when the argmaxed predictions and the
target disagree in length; `CrossEntropyLoss.update` on a tensor fails at
update time exactly when the reshape to `(-1, vocab_size)` is illegal or
the row count disagrees with the target length; `BinaryF1Score.update`
performs no validation and always succeeds, whatever the shapes. -/
theorem update_shape_validation
    (s : MaskedAccuracyState) (preds : List (List ℚ)) (target : List Int)
    (sB : BinaryF1ScoreState) (out : ModelOutput) (tgtB : List Int)
    (ce : List ℚ → Int → ℚ) (sC : CrossEntropyLossState)
    (t : List (List ℚ)) (tgtC : List Int) :
    ((∃ e, MaskedAccuracy.update s preds target = Except.error e) ↔
      preds.length ≠ target.length) ∧
    BinaryF1Score.update sB out tgtB =
      Except.ok ⟨sB.predictions ++ [out], sB.labels ++ [tgtB]⟩ ∧
    ((∃ e, CrossEntropyLoss.update ce sC (ModelOutput.tensor t) tgtC =
        Except.error e) ↔
      (sC.vocab_size = 0 ∨ t.flatten.length % sC.vocab_size ≠ 0 ∨
        t.flatten.length / sC.vocab_size ≠ tgtC.length)) := by
  refine ⟨?_, rfl, ?_⟩
  · simp only [MaskedAccuracy.update, List.length_map]
    by_cases h : preds.length = target.length
    · simp [h]
    · simp [h]
  · constructor
    · rintro ⟨e, he⟩
      by_contra hc
      push_neg at hc
      rw [CrossEntropyLoss.update_tensor_ok ce sC t tgtC hc.1 hc.2.1 hc.2.2] at he
      exact Except.noConfusion he
    · intro h
      by_cases hv : sC.vocab_size = 0
      · exact ⟨_, CrossEntropyLoss.update_tensor_viewError ce sC t tgtC (Or.inl hv)⟩
      · by_cases hm : t.flatten.length % sC.vocab_size = 0
        · have h3 : t.flatten.length / sC.vocab_size ≠ tgtC.length := by
            rcases h with h | h | h
            · exact absurd h hv
            · exact absurd hm h
            · exact h
          exact ⟨_, CrossEntropyLoss.update_tensor_shapeMismatch ce sC t tgtC hv hm h3⟩
        · exact ⟨_, CrossEntropyLoss.update_tensor_viewError ce sC t tgtC (Or.inr hm)⟩

theorem MaskedAccuracy.update_ignore_index {s : MaskedAccuracyState}
    {preds : List (List ℚ)} {target : List Int} {s' : MaskedAccuracyState}
    (h : MaskedAccuracy.update s preds target = Except.ok s') :
    s'.ignore_index = s.ignore_index := by
  simp only [MaskedAccuracy.update] at h
  split at h
  · injection h with h'
    subst h'
    rfl
  · exact Except.noConfusion h

theorem CrossEntropyLoss.update_config {ce : List ℚ → Int → ℚ}
    {s : CrossEntropyLossState} {out : ModelOutput} {target : List Int}
    {s' : CrossEntropyLossState}
    (h : CrossEntropyLoss.update ce s out target = Except.ok s') :
    s'.vocab_size = s.vocab_size ∧ s'.ignore_index = s.ignore_index := by
  cases out with
  | tensor t =>
    simp only [CrossEntropyLoss.update] at h
    split at h
    · split at h
      · injection h with h'
        subst h'
        exact ⟨rfl, rfl⟩
      · exact Except.noConfusion h
    · exact Except.noConfusion h
  | mapping l g => exact Except.noConfusion h
  | other => exact Except.noConfusion h

/-- C8: every successful update changes only the declared accumulator
fields — the construction-time configuration (`ignore_index` of
`MaskedAccuracy`, `vocab_size` and `ignore_index` of `CrossEntropyLoss`,
which also fix its `loss_fn`) is preserved by every update call. -/
theorem update_preserves_configuration :
    (∀ (s : MaskedAccuracyState) (preds : List (List ℚ)) (target : List Int)
        (s' : MaskedAccuracyState),
      MaskedAccuracy.update s preds target = Except.ok s' →
      s'.ignore_index = s.ignore_index) ∧
    (∀ (ce : List ℚ → Int → ℚ) (s : CrossEntropyLossState)
        (out : ModelOutput) (target : List Int) (s' : CrossEntropyLossState),
      CrossEntropyLoss.update ce s out target = Except.ok s' →
      s'.vocab_size = s.vocab_size ∧ s'.ignore_index = s.ignore_index) :=
  ⟨fun _ _ _ _ h => MaskedAccuracy.update_ignore_index h,
    fun _ _ _ _ _ h => CrossEntropyLoss.update_config h⟩

/-- Witness for C8 at a concrete input: one successful `MaskedAccuracy`
update leaves `ignore_index` untouched. -/
theorem update_preserves_configuration_witness :
    (⟨-100, 1, 1⟩ : MaskedAccuracyState).ignore_index =
      (MaskedAccuracy.init (-100)).ignore_index :=
  update_preserves_configuration.1 (MaskedAccuracy.init (-100)) [[0, 1]] [1]
    ⟨-100, 1, 1⟩
    (by norm_num [MaskedAccuracy.update, MaskedAccuracy.init, argmaxRow, argmaxAux])

theorem lossFnSum_ignore_zero (ce : List ℚ → Int → ℚ)
    (rows : List (List ℚ)) (tgt : List Int) :
    lossFnSum ce (some 0) rows tgt =
      ((rows.zip tgt).filter (fun rt => decide (rt.2 ≠ 0))).foldr
        (fun rt acc => ce rt.1 rt.2 + acc) 0 := by
  unfold lossFnSum
  congr 1
  apply List.filter_congr
  intro a _
  simp [eq_comm]

/-- C9: with `ignore_index = 0` — falsy in python — a successful
`CrossEntropyLoss.update` adds the full flattened target length to
`total_batches`, exactly as it would with `ignore_index = None`, while the
summed loss still skips the positions whose target is `0`. -/
theorem ignore_index_zero_uses_full_target_length
    (ce : List ℚ → Int → ℚ) (v : ℕ) (sl : ℚ) (tb : ℕ)
    (t : List (List ℚ)) (tgt : List Int) (s' : CrossEntropyLossState)
    (h : CrossEntropyLoss.update ce ⟨v, some 0, sl, tb⟩
      (ModelOutput.tensor t) tgt = Except.ok s') :
    s'.total_batches = tb + tgt.length ∧
    s'.sum_loss = sl +
      (((viewRows t.flatten v).zip tgt).filter
          (fun rt => decide (rt.2 ≠ 0))).foldr
        (fun rt acc => ce rt.1 rt.2 + acc) 0 ∧
    ∀ s₂ : CrossEntropyLossState,
      CrossEntropyLoss.update ce ⟨v, none, sl, tb⟩
        (ModelOutput.tensor t) tgt = Except.ok s₂ →
      s₂.total_batches = tb + tgt.length := by
  by_cases h1 : v = 0
  · rw [CrossEntropyLoss.update_tensor_viewError ce ⟨v, some 0, sl, tb⟩ t tgt
      (Or.inl h1)] at h
    exact Except.noConfusion h
  by_cases h2 : t.flatten.length % v = 0
  case neg =>
    rw [CrossEntropyLoss.update_tensor_viewError ce ⟨v, some 0, sl, tb⟩ t tgt
      (Or.inr h2)] at h
    exact Except.noConfusion h
  by_cases h3 : t.flatten.length / v = tgt.length
  case neg =>
    rw [CrossEntropyLoss.update_tensor_shapeMismatch ce ⟨v, some 0, sl, tb⟩ t tgt
      h1 h2 h3] at h
    exact Except.noConfusion h
  rw [CrossEntropyLoss.update_tensor_ok ce ⟨v, some 0, sl, tb⟩ t tgt h1 h2 h3] at h
  injection h with h'
  subst h'
  refine ⟨by simp [intTruthy], by simp [lossFnSum_ignore_zero], ?_⟩
  intro s₂ h₂
  rw [CrossEntropyLoss.update_tensor_ok ce ⟨v, none, sl, tb⟩ t tgt h1 h2 h3] at h₂
  injection h₂ with h₂'
  subst h₂'
  simp [intTruthy]

/-- Witness for C9 at a concrete input: `vocab_size = 2`, one batch of
four logits against targets `[0, 1]`, per-sample loss constantly `5`. -/
theorem ignore_index_zero_uses_full_target_length_witness :
    (⟨2, some 0, 5, 2⟩ : CrossEntropyLossState).total_batches =
      0 + ([0, 1] : List Int).length :=
  (ignore_index_zero_uses_full_target_length (fun _ _ => 5) 2 0 0
    [[1, 2], [3, 4]] [0, 1] ⟨2, some 0, 5, 2⟩
    (by
      rw [CrossEntropyLoss.update_tensor_ok (fun _ _ => 5) ⟨2, some 0, 0, 0⟩
        [[1, 2], [3, 4]] [0, 1] (by decide) (by decide) (by decide)]
      have hv : viewRows ([1, 2, 3, 4] : List ℚ) 2 = [[1, 2], [3, 4]] := rfl
      simp [hv, lossFnSum, intTruthy])).1

theorem runUpdates_cons {σ ε β : Type} (upd : σ → β → Except ε σ)
    (s : σ) (b : β) (bs : List β) :
    runUpdates upd s (b :: bs) =
      match upd s b with
      | .ok t => runUpdates upd t bs
      | .error e => .error e := by
  simp only [runUpdates]

theorem exceptMap_map {ε α β γ : Type} (f : α → β) (g : β → γ)
    (x : Except ε α) :
    Except.map g (Except.map f x) = Except.map (fun a => g (f a)) x := by
  cases x <;> rfl

theorem runUpdates_append_ok {σ ε β : Type} (upd : σ → β → Except ε σ)
    {s s₁ : σ} {l₁ : List β} (l₂ : List β)
    (h : runUpdates upd s l₁ = Except.ok s₁) :
    runUpdates upd s (l₁ ++ l₂) = runUpdates upd s₁ l₂ := by
  rw [runUpdates_append, h]

theorem MaskedAccuracy.run_ignore_index
    (batches : List (List (List ℚ) × List Int)) :
    ∀ s s' : MaskedAccuracyState,
      MaskedAccuracy.run s batches = Except.ok s' →
      s'.ignore_index = s.ignore_index := by
  induction batches with
  | nil =>
    intro s s' h
    injection h with h'
    subst h'
    rfl
  | cons b bs ih =>
    intro s s' h
    simp only [MaskedAccuracy.run, runUpdates] at h
    cases hu : MaskedAccuracy.update s b.1 b.2 with
    | error e =>
      rw [hu] at h
      exact Except.noConfusion h
    | ok t =>
      rw [hu] at h
      exact (ih t s' h).trans (MaskedAccuracy.update_ignore_index hu)

theorem maskedAccuracy_update_shift (i : Int) (c n : ℕ)
    (preds : List (List ℚ)) (target : List Int) :
    MaskedAccuracy.update ⟨i, c, n⟩ preds target =
      Except.map
        (fun d => (⟨i, c + d.correct, n + d.total⟩ : MaskedAccuracyState))
        (MaskedAccuracy.update ⟨i, 0, 0⟩ preds target) := by
  by_cases h : preds.length = target.length
  · simp [MaskedAccuracy.update, h, Except.map]
  · simp [MaskedAccuracy.update, h, Except.map]

theorem maskedAccuracy_run_shift (batches : List (List (List ℚ) × List Int))
    (i : Int) (c n : ℕ) :
    MaskedAccuracy.run ⟨i, c, n⟩ batches =
      Except.map
        (fun d => (⟨i, c + d.correct, n + d.total⟩ : MaskedAccuracyState))
        (MaskedAccuracy.run ⟨i, 0, 0⟩ batches) := by
  induction batches generalizing c n with
  | nil => rfl
  | cons b bs ih =>
    simp only [MaskedAccuracy.run] at ih ⊢
    rw [runUpdates_cons, runUpdates_cons, maskedAccuracy_update_shift]
    cases hu : MaskedAccuracy.update ⟨i, 0, 0⟩ b.1 b.2 with
    | error e => rfl
    | ok d =>
      obtain ⟨di, dc, dn⟩ := d
      have e₁ : di = i := MaskedAccuracy.update_ignore_index hu
      rw [e₁]
      show runUpdates
          (fun (st : MaskedAccuracyState) (b : List (List ℚ) × List Int) =>
            MaskedAccuracy.update st b.1 b.2) ⟨i, c + dc, n + dn⟩ bs =
        Except.map
          (fun d => (⟨i, c + d.correct, n + d.total⟩ : MaskedAccuracyState))
          (runUpdates
            (fun (st : MaskedAccuracyState) (b : List (List ℚ) × List Int) =>
              MaskedAccuracy.update st b.1 b.2) ⟨i, dc, dn⟩ bs)
      rw [ih (c + dc) (n + dn), ih dc dn, exceptMap_map]
      congr 1
      funext d
      simp [Nat.add_assoc]

theorem maskedAccuracy_run_append {s s₁ : MaskedAccuracyState}
    {b₁ : List (List (List ℚ) × List Int)}
    (b₂ : List (List (List ℚ) × List Int))
    (h : MaskedAccuracy.run s b₁ = Except.ok s₁) :
    MaskedAccuracy.run s (b₁ ++ b₂) = MaskedAccuracy.run s₁ b₂ :=
  runUpdates_append_ok _ b₂ h

theorem maskedAccuracy_run_append_merge {i : Int}
    {b₁ b₂ : List (List (List ℚ) × List Int)} {s₁ s₂ : MaskedAccuracyState}
    (h₁ : MaskedAccuracy.run (MaskedAccuracy.init i) b₁ = Except.ok s₁)
    (h₂ : MaskedAccuracy.run (MaskedAccuracy.init i) b₂ = Except.ok s₂) :
    MaskedAccuracy.run (MaskedAccuracy.init i) (b₁ ++ b₂) =
      Except.ok (MaskedAccuracy.merge s₁ s₂) := by
  rw [maskedAccuracy_run_append b₂ h₁]
  obtain ⟨i₁, c₁, n₁⟩ := s₁
  have e₁ : i₁ = i := MaskedAccuracy.run_ignore_index b₁ _ _ h₁
  rw [e₁]
  simp only [MaskedAccuracy.init] at h₂
  rw [maskedAccuracy_run_shift b₂ i c₁ n₁, h₂]
  rfl

theorem CrossEntropyLoss.run_config (ce : List ℚ → Int → ℚ)
    (batches : List (ModelOutput × List Int)) :
    ∀ s s' : CrossEntropyLossState,
      CrossEntropyLoss.run ce s batches = Except.ok s' →
      s'.vocab_size = s.vocab_size ∧ s'.ignore_index = s.ignore_index := by
  induction batches with
  | nil =>
    intro s s' h
    injection h with h'
    subst h'
    exact ⟨rfl, rfl⟩
  | cons b bs ih =>
    intro s s' h
    simp only [CrossEntropyLoss.run, runUpdates] at h
    cases hu : CrossEntropyLoss.update ce s b.1 b.2 with
    | error e =>
      rw [hu] at h
      exact Except.noConfusion h
    | ok t =>
      rw [hu] at h
      have h1 := ih t s' h
      have h2 := CrossEntropyLoss.update_config hu
      exact ⟨h1.1.trans h2.1, h1.2.trans h2.2⟩

theorem crossEntropyLoss_update_shift (ce : List ℚ → Int → ℚ)
    (v : ℕ) (ig : Option Int) (sl : ℚ) (tb : ℕ)
    (out : ModelOutput) (target : List Int) :
    CrossEntropyLoss.update ce ⟨v, ig, sl, tb⟩ out target =
      Except.map
        (fun d =>
          (⟨v, ig, sl + d.sum_loss, tb + d.total_batches⟩ : CrossEntropyLossState))
        (CrossEntropyLoss.update ce ⟨v, ig, 0, 0⟩ out target) := by
  cases out with
  | tensor t =>
    by_cases h1 : v = 0
    · rw [CrossEntropyLoss.update_tensor_viewError ce ⟨v, ig, sl, tb⟩ t target
          (Or.inl h1),
        CrossEntropyLoss.update_tensor_viewError ce ⟨v, ig, 0, 0⟩ t target
          (Or.inl h1)]
      rfl
    by_cases h2 : t.flatten.length % v = 0
    case neg =>
      rw [CrossEntropyLoss.update_tensor_viewError ce ⟨v, ig, sl, tb⟩ t target
          (Or.inr h2),
        CrossEntropyLoss.update_tensor_viewError ce ⟨v, ig, 0, 0⟩ t target
          (Or.inr h2)]
      rfl
    by_cases h3 : t.flatten.length / v = target.length
    case neg =>
      rw [CrossEntropyLoss.update_tensor_shapeMismatch ce ⟨v, ig, sl, tb⟩ t target
          h1 h2 h3,
        CrossEntropyLoss.update_tensor_shapeMismatch ce ⟨v, ig, 0, 0⟩ t target
          h1 h2 h3]
      rfl
    rw [CrossEntropyLoss.update_tensor_ok ce ⟨v, ig, sl, tb⟩ t target h1 h2 h3,
      CrossEntropyLoss.update_tensor_ok ce ⟨v, ig, 0, 0⟩ t target h1 h2 h3]
    simp [Except.map]
  | mapping l g => rfl
  | other => rfl

theorem crossEntropyLoss_run_shift (ce : List ℚ → Int → ℚ)
    (batches : List (ModelOutput × List Int))
    (v : ℕ) (ig : Option Int) (sl : ℚ) (tb : ℕ) :
    CrossEntropyLoss.run ce ⟨v, ig, sl, tb⟩ batches =
      Except.map
        (fun d =>
          (⟨v, ig, sl + d.sum_loss, tb + d.total_batches⟩ : CrossEntropyLossState))
        (CrossEntropyLoss.run ce ⟨v, ig, 0, 0⟩ batches) := by
  induction batches generalizing sl tb with
  | nil => simp [CrossEntropyLoss.run, runUpdates, Except.map]
  | cons b bs ih =>
    simp only [CrossEntropyLoss.run] at ih ⊢
    rw [runUpdates_cons, runUpdates_cons, crossEntropyLoss_update_shift]
    cases hu : CrossEntropyLoss.update ce ⟨v, ig, 0, 0⟩ b.1 b.2 with
    | error e => rfl
    | ok d =>
      obtain ⟨dv, dig, dsl, dtb⟩ := d
      have e₀ := CrossEntropyLoss.update_config hu
      have ev : dv = v := e₀.1
      have eig : dig = ig := e₀.2
      rw [ev, eig]
      show runUpdates
          (fun (st : CrossEntropyLossState) (b : ModelOutput × List Int) =>
            CrossEntropyLoss.update ce st b.1 b.2) ⟨v, ig, sl + dsl, tb + dtb⟩ bs =
        Except.map
          (fun d =>
            (⟨v, ig, sl + d.sum_loss, tb + d.total_batches⟩ : CrossEntropyLossState))
          (runUpdates
            (fun (st : CrossEntropyLossState) (b : ModelOutput × List Int) =>
              CrossEntropyLoss.update ce st b.1 b.2) ⟨v, ig, dsl, dtb⟩ bs)
      rw [ih (sl + dsl) (tb + dtb), ih dsl dtb, exceptMap_map]
      congr 1
      funext d
      simp [add_assoc]

theorem crossEntropyLoss_run_append {ce : List ℚ → Int → ℚ}
    {s s₁ : CrossEntropyLossState} {b₁ : List (ModelOutput × List Int)}
    (b₂ : List (ModelOutput × List Int))
    (h : CrossEntropyLoss.run ce s b₁ = Except.ok s₁) :
    CrossEntropyLoss.run ce s (b₁ ++ b₂) = CrossEntropyLoss.run ce s₁ b₂ :=
  runUpdates_append_ok _ b₂ h

theorem crossEntropyLoss_run_append_merge {ce : List ℚ → Int → ℚ}
    {v : ℕ} {ig : Option Int} {b₁ b₂ : List (ModelOutput × List Int)}
    {s₁ s₂ : CrossEntropyLossState}
    (h₁ : CrossEntropyLoss.run ce (CrossEntropyLoss.init v ig) b₁ = Except.ok s₁)
    (h₂ : CrossEntropyLoss.run ce (CrossEntropyLoss.init v ig) b₂ = Except.ok s₂) :
    CrossEntropyLoss.run ce (CrossEntropyLoss.init v ig) (b₁ ++ b₂) =
      Except.ok (CrossEntropyLoss.merge s₁ s₂) := by
  rw [crossEntropyLoss_run_append b₂ h₁]
  obtain ⟨v₁, ig₁, sl₁, tb₁⟩ := s₁
  have e₀ := CrossEntropyLoss.run_config ce b₁ _ _ h₁
  have ev : v₁ = v := e₀.1
  have eig : ig₁ = ig := e₀.2
  rw [ev, eig]
  simp only [CrossEntropyLoss.init] at h₂
  rw [crossEntropyLoss_run_shift ce b₂ v ig sl₁ tb₁, h₂]
  rfl

theorem languageCrossEntropyLoss_update_shift
    (sce : List (List ℚ) → List Int → ℚ) (sl : ℚ) (tb : ℕ)
    (out : ModelOutput) (target : List Int) :
    LanguageCrossEntropyLoss.update sce ⟨sl, tb⟩ out target =
      Except.map
        (fun d =>
          (⟨sl + d.sum_loss, tb + d.total_batches⟩ : LanguageCrossEntropyLossState))
        (LanguageCrossEntropyLoss.update sce ⟨0, 0⟩ out target) := by
  cases out with
  | tensor t => simp [LanguageCrossEntropyLoss.update, Except.map]
  | mapping l g =>
    cases l with
    | some q => simp [LanguageCrossEntropyLoss.update, Except.map]
    | none =>
      cases g with
      | some gg => simp [LanguageCrossEntropyLoss.update, Except.map]
      | none => rfl
  | other => rfl

theorem languageCrossEntropyLoss_run_shift
    (sce : List (List ℚ) → List Int → ℚ)
    (batches : List (ModelOutput × List Int)) (sl : ℚ) (tb : ℕ) :
    LanguageCrossEntropyLoss.run sce ⟨sl, tb⟩ batches =
      Except.map
        (fun d =>
          (⟨sl + d.sum_loss, tb + d.total_batches⟩ : LanguageCrossEntropyLossState))
        (LanguageCrossEntropyLoss.run sce ⟨0, 0⟩ batches) := by
  induction batches generalizing sl tb with
  | nil => simp [LanguageCrossEntropyLoss.run, runUpdates, Except.map]
  | cons b bs ih =>
    simp only [LanguageCrossEntropyLoss.run] at ih ⊢
    rw [runUpdates_cons, runUpdates_cons, languageCrossEntropyLoss_update_shift]
    cases hu : LanguageCrossEntropyLoss.update sce ⟨0, 0⟩ b.1 b.2 with
    | error e => rfl
    | ok d =>
      obtain ⟨dsl, dtb⟩ := d
      show runUpdates
          (fun (st : LanguageCrossEntropyLossState) (b : ModelOutput × List Int) =>
            LanguageCrossEntropyLoss.update sce st b.1 b.2) ⟨sl + dsl, tb + dtb⟩ bs =
        Except.map
          (fun d =>
            (⟨sl + d.sum_loss, tb + d.total_batches⟩ : LanguageCrossEntropyLossState))
          (runUpdates
            (fun (st : LanguageCrossEntropyLossState) (b : ModelOutput × List Int) =>
              LanguageCrossEntropyLoss.update sce st b.1 b.2) ⟨dsl, dtb⟩ bs)
      rw [ih (sl + dsl) (tb + dtb), ih dsl dtb, exceptMap_map]
      congr 1
      funext d
      simp [add_assoc]

theorem languageCrossEntropyLoss_run_append
    {sce : List (List ℚ) → List Int → ℚ}
    {s s₁ : LanguageCrossEntropyLossState} {b₁ : List (ModelOutput × List Int)}
    (b₂ : List (ModelOutput × List Int))
    (h : LanguageCrossEntropyLoss.run sce s b₁ = Except.ok s₁) :
    LanguageCrossEntropyLoss.run sce s (b₁ ++ b₂) =
      LanguageCrossEntropyLoss.run sce s₁ b₂ :=
  runUpdates_append_ok _ b₂ h

theorem languageCrossEntropyLoss_run_append_merge
    {sce : List (List ℚ) → List Int → ℚ}
    {b₁ b₂ : List (ModelOutput × List Int)}
    {s₁ s₂ : LanguageCrossEntropyLossState}
    (h₁ : LanguageCrossEntropyLoss.run sce LanguageCrossEntropyLoss.init b₁ =
      Except.ok s₁)
    (h₂ : LanguageCrossEntropyLoss.run sce LanguageCrossEntropyLoss.init b₂ =
      Except.ok s₂) :
    LanguageCrossEntropyLoss.run sce LanguageCrossEntropyLoss.init (b₁ ++ b₂) =
      Except.ok (LanguageCrossEntropyLoss.merge s₁ s₂) := by
  rw [languageCrossEntropyLoss_run_append b₂ h₁]
  obtain ⟨sl₁, tb₁⟩ := s₁
  simp only [LanguageCrossEntropyLoss.init] at h₂
  rw [languageCrossEntropyLoss_run_shift sce b₂ sl₁ tb₁, h₂]
  rfl

theorem BinaryF1Score.run_ok (batches : List (ModelOutput × List Int)) :
    ∀ s : BinaryF1ScoreState,
      BinaryF1Score.run s batches =
        Except.ok ⟨s.predictions ++ batches.map Prod.fst,
          s.labels ++ batches.map Prod.snd⟩ := by
  induction batches with
  | nil =>
    intro s
    simp [BinaryF1Score.run, runUpdates]
  | cons b bs ih =>
    intro s
    simp only [BinaryF1Score.run] at ih ⊢
    rw [runUpdates_cons]
    show runUpdates
        (fun (st : BinaryF1ScoreState) (b : ModelOutput × List Int) =>
          BinaryF1Score.update st b.1 b.2)
        (⟨s.predictions ++ [b.1], s.labels ++ [b.2]⟩ : BinaryF1ScoreState) bs = _
    rw [ih ⟨s.predictions ++ [b.1], s.labels ++ [b.2]⟩]
    simp

theorem binaryF1Score_run_append_merge
    {b₁ b₂ : List (ModelOutput × List Int)} {s₁ s₂ : BinaryF1ScoreState}
    (h₁ : BinaryF1Score.run BinaryF1Score.init b₁ = Except.ok s₁)
    (h₂ : BinaryF1Score.run BinaryF1Score.init b₂ = Except.ok s₂) :
    BinaryF1Score.run BinaryF1Score.init (b₁ ++ b₂) =
      Except.ok (BinaryF1Score.merge s₁ s₂) := by
  have e₁ := BinaryF1Score.run_ok b₁ BinaryF1Score.init
  rw [h₁] at e₁
  injection e₁ with e₁
  have e₂ := BinaryF1Score.run_ok b₂ BinaryF1Score.init
  rw [h₂] at e₂
  injection e₂ with e₂
  rw [BinaryF1Score.run_ok (b₁ ++ b₂) BinaryF1Score.init]
  subst e₁
  subst e₂
  simp [BinaryF1Score.merge, BinaryF1Score.init]

/-- C6: for each metric, running two disjoint batch sequences on two fresh
worker instances, merging the resulting states with the declared per-field
reduction rule (sum for the counters, concatenation for the prediction and
label lists) and then computing equals running all batches through one
instance and computing on the pooled state. -/
theorem merge_then_compute_eq_pooled_compute :
    (∀ (i : Int) (b₁ b₂ : List (List (List ℚ) × List Int))
        (s₁ s₂ : MaskedAccuracyState),
      MaskedAccuracy.run (MaskedAccuracy.init i) b₁ = Except.ok s₁ →
      MaskedAccuracy.run (MaskedAccuracy.init i) b₂ = Except.ok s₂ →
      MaskedAccuracy.run (MaskedAccuracy.init i) (b₁ ++ b₂) =
          Except.ok (MaskedAccuracy.merge s₁ s₂) ∧
        ∀ sp, MaskedAccuracy.run (MaskedAccuracy.init i) (b₁ ++ b₂) =
            Except.ok sp →
          MaskedAccuracy.compute (MaskedAccuracy.merge s₁ s₂) =
            MaskedAccuracy.compute sp) ∧
    (∀ (ce : List ℚ → Int → ℚ) (v : ℕ) (ig : Option Int)
        (b₁ b₂ : List (ModelOutput × List Int)) (s₁ s₂ : CrossEntropyLossState),
      CrossEntropyLoss.run ce (CrossEntropyLoss.init v ig) b₁ = Except.ok s₁ →
      CrossEntropyLoss.run ce (CrossEntropyLoss.init v ig) b₂ = Except.ok s₂ →
      CrossEntropyLoss.run ce (CrossEntropyLoss.init v ig) (b₁ ++ b₂) =
          Except.ok (CrossEntropyLoss.merge s₁ s₂) ∧
        ∀ sp, CrossEntropyLoss.run ce (CrossEntropyLoss.init v ig) (b₁ ++ b₂) =
            Except.ok sp →
          CrossEntropyLoss.compute (CrossEntropyLoss.merge s₁ s₂) =
            CrossEntropyLoss.compute sp) ∧
    (∀ (sce : List (List ℚ) → List Int → ℚ)
        (b₁ b₂ : List (ModelOutput × List Int))
        (s₁ s₂ : LanguageCrossEntropyLossState),
      LanguageCrossEntropyLoss.run sce LanguageCrossEntropyLoss.init b₁ =
        Except.ok s₁ →
      LanguageCrossEntropyLoss.run sce LanguageCrossEntropyLoss.init b₂ =
        Except.ok s₂ →
      LanguageCrossEntropyLoss.run sce LanguageCrossEntropyLoss.init (b₁ ++ b₂) =
          Except.ok (LanguageCrossEntropyLoss.merge s₁ s₂) ∧
        ∀ sp, LanguageCrossEntropyLoss.run sce LanguageCrossEntropyLoss.init
            (b₁ ++ b₂) = Except.ok sp →
          LanguageCrossEntropyLoss.compute (LanguageCrossEntropyLoss.merge s₁ s₂) =
            LanguageCrossEntropyLoss.compute sp) ∧
    (∀ (f1 : List ModelOutput → List (List Int) → EFloat)
        (b₁ b₂ : List (ModelOutput × List Int)) (s₁ s₂ : BinaryF1ScoreState),
      BinaryF1Score.run BinaryF1Score.init b₁ = Except.ok s₁ →
      BinaryF1Score.run BinaryF1Score.init b₂ = Except.ok s₂ →
      BinaryF1Score.run BinaryF1Score.init (b₁ ++ b₂) =
          Except.ok (BinaryF1Score.merge s₁ s₂) ∧
        ∀ sp, BinaryF1Score.run BinaryF1Score.init (b₁ ++ b₂) = Except.ok sp →
          BinaryF1Score.compute f1 (BinaryF1Score.merge s₁ s₂) =
            BinaryF1Score.compute f1 sp) := by
  refine ⟨?_, ?_, ?_, ?_⟩
  · intro i b₁ b₂ s₁ s₂ h₁ h₂
    have hm := maskedAccuracy_run_append_merge h₁ h₂
    refine ⟨hm, ?_⟩
    intro sp hsp
    rw [hm] at hsp
    injection hsp with hsp
    rw [hsp]
  · intro ce v ig b₁ b₂ s₁ s₂ h₁ h₂
    have hm := crossEntropyLoss_run_append_merge h₁ h₂
    refine ⟨hm, ?_⟩
    intro sp hsp
    rw [hm] at hsp
    injection hsp with hsp
    rw [hsp]
  · intro sce b₁ b₂ s₁ s₂ h₁ h₂
    have hm := languageCrossEntropyLoss_run_append_merge h₁ h₂
    refine ⟨hm, ?_⟩
    intro sp hsp
    rw [hm] at hsp
    injection hsp with hsp
    rw [hsp]
  · intro f1 b₁ b₂ s₁ s₂ h₁ h₂
    have hm := binaryF1Score_run_append_merge h₁ h₂
    refine ⟨hm, ?_⟩
    intro sp hsp
    rw [hm] at hsp
    injection hsp with hsp
    rw [hsp]

/-- Witness for C6 at concrete inputs: two one-batch workers of
`MaskedAccuracy` with `ignore_index = -1`, each of whose single update is
fully correct, merge to the pooled run over both batches. -/
theorem merge_then_compute_eq_pooled_compute_witness :
    MaskedAccuracy.run (MaskedAccuracy.init (-1))
        ([([[0, 1]], [1])] ++ [([[1, 0]], [0])]) =
      Except.ok (MaskedAccuracy.merge ⟨-1, 1, 1⟩ ⟨-1, 1, 1⟩) :=
  (merge_then_compute_eq_pooled_compute.1 (-1) [([[0, 1]], [1])]
    [([[1, 0]], [0])] ⟨-1, 1, 1⟩ ⟨-1, 1, 1⟩
    (by norm_num [MaskedAccuracy.run, runUpdates, MaskedAccuracy.update,
      MaskedAccuracy.init, argmaxRow, argmaxAux])
    (by norm_num [MaskedAccuracy.run, runUpdates, MaskedAccuracy.update,
      MaskedAccuracy.init, argmaxRow, argmaxAux])).1

end Composer
